import Mathlib

/-!
Verification of the catalog client (`src/lib/catalog.ts`) of the agrosnab
repository: a shallow embedding of the fetch/normalize/cache pipeline into
Lean 4, together with proofs about it.

JavaScript dynamic values are modelled by the mutually inductive family
`JSVal` / `JSList` / `JSObj`; JavaScript numbers are modelled by `JsNum`,
with exact rationals (`Q`, a self-contained normalized pair, kept
kernel-computable so concrete runs of the model can be checked by `decide`)
standing in for IEEE doubles — every value examined by the claims is
represented exactly by the double format, so the exact-rational model agrees
with the source on them — plus explicit `nan` / infinity constructors.
-/

/-- Exact rationals as a normalized numerator/denominator pair (positive
denominator coprime to the numerator for every value built by the `Q.*`
operations below). -/
structure Q where
  n : Int
  d : Nat
  deriving DecidableEq, Repr

/-- Build a normalized rational from a numerator and a (positive)
denominator. -/
def Q.norm (a : Int) (b : Nat) : Q :=
  let g := a.natAbs.gcd b
  ⟨a / (g : Int), b / g⟩

def Q.ofNat (a : Nat) : Q := ⟨(a : Int), 1⟩

def Q.add (a b : Q) : Q := Q.norm (a.n * b.d + b.n * a.d) (a.d * b.d)

def Q.mul (a b : Q) : Q := Q.norm (a.n * b.n) (a.d * b.d)

def Q.neg (a : Q) : Q := ⟨-a.n, a.d⟩

/-- Reciprocal; division by zero yields zero (never reached below). -/
def Q.inv (a : Q) : Q :=
  if a.n < 0 then ⟨-(a.d : Int), a.n.natAbs⟩
  else if a.n = 0 then ⟨0, 1⟩
  else ⟨(a.d : Int), a.n.natAbs⟩

def Q.div (a b : Q) : Q := a.mul b.inv

def Q.isNeg (a : Q) : Bool := a.n < 0

def Q.zero : Q := ⟨0, 1⟩

/-- JavaScript numbers: `nan`, the two infinities, and finite values. -/
inductive JsNum where
  | nan
  | inf
  | negInf
  | fin (q : Q)
  deriving DecidableEq, Repr

mutual
/-- Untyped JavaScript/JSON values, as received from `response.json()`. -/
inductive JSVal where
  | undefined
  | nullv
  | bool (b : Bool)
  | num (n : JsNum)
  | str (s : String)
  | arr (elems : JSList)
  | obj (fields : JSObj)
  deriving DecidableEq, Repr

/-- A JavaScript array's elements. -/
inductive JSList where
  | nil
  | cons (head : JSVal) (tail : JSList)
  deriving DecidableEq, Repr

/-- A JavaScript object's own properties, in insertion order. -/
inductive JSObj where
  | nil
  | cons (key : String) (value : JSVal) (tail : JSObj)
  deriving DecidableEq, Repr
end

/-- Embed a Lean list of values as a `JSList`. -/
def JSList.ofList : List JSVal → JSList
  | [] => .nil
  | x :: xs => .cons x (JSList.ofList xs)

/-- View a `JSList` as a Lean list. -/
def JSList.toList : JSList → List JSVal
  | .nil => []
  | .cons x xs => x :: xs.toList

/-- Embed a Lean association list as a `JSObj`. -/
def JSObj.ofList : List (String × JSVal) → JSObj
  | [] => .nil
  | (k, v) :: xs => .cons k v (JSObj.ofList xs)

/-- Property lookup in an object; a missing property reads as `undefined`. -/
def JSObj.get : JSObj → String → JSVal
  | .nil, _ => .undefined
  | .cons k v rest, field => if k = field then v else rest.get field

/-- Truthiness of a JavaScript number: `NaN` and `0` are falsy. -/
def jsNumTruthy : JsNum → Bool
  | .nan => false
  | .inf => true
  | .negInf => true
  | .fin q => q != Q.zero

/-- JavaScript truthiness (`if (x)` / `x || y`). -/
def jsTruthy : JSVal → Bool
  | .undefined => false
  | .nullv => false
  | .bool b => b
  | .num n => jsNumTruthy n
  | .str s => s != ""
  | .arr _ => true
  | .obj _ => true

/-- The JavaScript `||` operator: the left operand when truthy, else the
right. -/
def jsOr (a b : JSVal) : JSVal :=
  if jsTruthy a then a else b

/-- Property access `v.field`: throws a `TypeError` when the base value is
`null` or `undefined`, reads `undefined` on other non-objects. -/
def jsMember (v : JSVal) (field : String) : Except Unit JSVal :=
  match v with
  | .undefined => .error ()
  | .nullv => .error ()
  | .obj fields => .ok (fields.get field)
  | _ => .ok .undefined

/-- Decimal rendering of a finite JS number (`String(n)`): exact when the
reduced denominator divides a power of ten — which covers every dyadic
rational and hence every IEEE double — with a rational fallback otherwise
(unreachable from double-valued inputs). -/
def finToString (q : Q) : String :=
  let sign := if q.isNeg then "-" else ""
  let a := q.n.natAbs
  let d := q.d
  match (List.range 64).find? (fun k => 10 ^ k % d = 0) with
  | some k =>
    let m := a * 10 ^ k / d
    let ip := m / 10 ^ k
    let fp := m % 10 ^ k
    if fp = 0 then sign ++ toString ip
    else
      let digits := toString fp
      let padded := String.mk (List.replicate (k - digits.length) '0') ++ digits
      let trimmed := String.mk (padded.data.reverse.dropWhile (· = '0')).reverse
      sign ++ toString ip ++ "." ++ trimmed
  | none => sign ++ toString a ++ "/" ++ toString d

/-- `String(n)` for a JS number. -/
def numToString : JsNum → String
  | .nan => "NaN"
  | .inf => "Infinity"
  | .negInf => "-Infinity"
  | .fin q => finToString q

mutual
/-- The JavaScript `String(v)` coercion. -/
def jsToString : JSVal → String
  | .undefined => "undefined"
  | .nullv => "null"
  | .bool b => if b then "true" else "false"
  | .num n => numToString n
  | .str s => s
  | .arr elems => jsArrToString elems
  | .obj _ => "[object Object]"

/-- `Array.prototype.toString`: elements joined by commas; `null` and
`undefined` elements render as the empty string. -/
def jsArrToString : JSList → String
  | .nil => ""
  | .cons .undefined .nil => ""
  | .cons .nullv .nil => ""
  | .cons x .nil => jsToString x
  | .cons .undefined rest => "," ++ jsArrToString rest
  | .cons .nullv rest => "," ++ jsArrToString rest
  | .cons x rest => jsToString x ++ "," ++ jsArrToString rest
end

/-- ASCII whitespace (as skipped by `parseFloat` and removed by
`String.prototype.trim`). -/
def jsIsWs (c : Char) : Bool :=
  c = ' ' || c = '\t' || c = '\n' || c = '\r' || c = '\x0b' || c = '\x0c'

/-- Drop the longest suffix whose characters all satisfy `p`. -/
def dropTrailingWhile (p : Char → Bool) (l : List Char) : List Char :=
  (l.reverse.dropWhile p).reverse

/-- Model of `String.prototype.trim`: strip leading and trailing
whitespace. -/
def jsTrim (s : String) : String :=
  String.mk (dropTrailingWhile jsIsWs (s.data.dropWhile jsIsWs))

/-- Model of `String.prototype.split(",")`: cut at every comma; splitting
the empty string yields `[""]`. -/
def splitCommaGo : List Char → List Char → List String
  | acc, [] => [String.mk acc.reverse]
  | acc, ',' :: rest => String.mk acc.reverse :: splitCommaGo [] rest
  | acc, c :: rest => splitCommaGo (c :: acc) rest

def jsSplitComma (s : String) : List String := splitCommaGo [] s.data

/-- Numeric value of a run of decimal digits. -/
def digitsToNat (ds : List Char) : Nat :=
  ds.foldl (fun acc c => 10 * acc + (c.toNat - '0'.toNat)) 0

/-- The JavaScript `parseFloat` function: skip leading whitespace, optional
sign, then either `Infinity` or the longest prefix of the form
`digits [. digits] [e/E [sign] digits]`; no valid prefix yields `NaN`. -/
def parseFloat (s : String) : JsNum :=
  let cs := s.data.dropWhile jsIsWs
  let (neg, cs) : Bool × List Char :=
    match cs with
    | '-' :: r => (true, r)
    | '+' :: r => (false, r)
    | _ => (false, cs)
  if cs.take 8 = "Infinity".data then
    if neg then .negInf else .inf
  else
    let (d1, r1) := cs.span Char.isDigit
    let (d2, r2) :=
      match r1 with
      | '.' :: r => r.span Char.isDigit
      | _ => ([], r1)
    if d1.isEmpty && d2.isEmpty then .nan
    else
      let mant : Q :=
        (Q.ofNat (digitsToNat d1)).add
          ((Q.ofNat (digitsToNat d2)).div (Q.ofNat (10 ^ d2.length)))
      let (expNeg, expMag) : Bool × Nat :=
        match r2 with
        | 'e' :: rest | 'E' :: rest =>
          let (esgn, rest2) : Bool × List Char :=
            match rest with
            | '-' :: r => (true, r)
            | '+' :: r => (false, r)
            | _ => (false, rest)
          let ed := rest2.takeWhile Char.isDigit
          if ed.isEmpty then (false, 0) else (esgn, digitsToNat ed)
        | _ => (false, 0)
      let scaled :=
        if expNeg then mant.div (Q.ofNat (10 ^ expMag))
        else mant.mul (Q.ofNat (10 ^ expMag))
      .fin (if neg then scaled.neg else scaled)

/-- `String(val).replace(',', '.')` replaces only the first comma. -/
def replaceFirstComma : List Char → List Char
  | [] => []
  | c :: cs => if c = ',' then '.' :: cs else c :: replaceFirstComma cs

/-- `parseNum` from the source:
`parseFloat(String(val).replace(',', '.')) || 0`. -/
def parseNum (val : JSVal) : JsNum :=
  let n := parseFloat (String.mk (replaceFirstComma (jsToString val).data))
  if jsNumTruthy n then n else .fin Q.zero

/-! ## Model of the WHATWG `new URL(...)` constructor

`isValidImageUrl` calls the platform's `URL` constructor. The model below
captures the parts of WHATWG URL parsing the claims exercise: input
cleaning (tab/newline removal, leading control/space trimming), scheme
syntax (`ALPHA *(ALPHA / DIGIT / "+" / "-" / ".") ":"`), lowercasing of the
scheme into `protocol`, unconditional acceptance of non-special schemes
(opaque path), and host validation for the special schemes. -/

/-- Characters removed anywhere in the input by the URL parser. -/
def urlStripChar (c : Char) : Bool := c = '\t' || c = '\n' || c = '\r'

/-- Leading characters trimmed by the URL parser (C0 controls and space). -/
def urlTrimChar (c : Char) : Bool := c.toNat ≤ 0x20

/-- URL input cleaning: strip tab/newline everywhere, trim leading and
trailing C0-control/space characters. -/
def cleanUrl (s : String) : List Char :=
  dropTrailingWhile urlTrimChar
    ((s.data.filter (fun c => !urlStripChar c)).dropWhile urlTrimChar)

/-- Characters allowed after the first in a URL scheme. -/
def schemeCharB (c : Char) : Bool :=
  c.isAlphanum || c = '+' || c = '-' || c = '.'

/-- Accumulating scan for the scheme: stops at the first `:`. -/
def schemeSplitGo : List Char → List Char → Option (List Char × List Char)
  | acc, c :: rest =>
    if c = ':' then some (acc.reverse, rest)
    else if schemeCharB c then schemeSplitGo (c :: acc) rest
    else none
  | _, [] => none

/-- Split `scheme ":" rest`; the scheme must start with a letter. -/
def schemeSplit : List Char → Option (List Char × List Char)
  | c :: cs => if c.isAlpha then schemeSplitGo [c] cs else none
  | [] => none

/-- Schemes whose URLs must carry a host. -/
def specialSchemes : List String := ["ftp", "file", "http", "https", "ws", "wss"]

/-- Code points that may not appear in a host. -/
def forbiddenHostChar (c : Char) : Bool :=
  c.toNat < 0x20 || c = ' ' || c = '#' || c = '%' || c = '<' || c = '>' ||
  c = '?' || c = '@' || c = '[' || c = '\\' || c = ']' || c = '^' || c = '|'

/-- Model of `new URL(url)` (no base): `some protocol` when parsing
succeeds — `protocol` being the lowercased scheme followed by `:` — and
`none` when the constructor would throw. -/
def urlParse (url : String) : Option String :=
  match schemeSplit (cleanUrl url) with
  | none => none
  | some (sch, rest) =>
    let scheme := String.mk (sch.map Char.toLower)
    if scheme ∈ specialSchemes then
      if scheme = "file" then some (scheme ++ ":")
      else
        let afterSlashes := rest.dropWhile (fun c => c = '/' || c = '\\')
        let authority :=
          afterSlashes.takeWhile (fun c => !(c = '/' || c = '?' || c = '#' || c = '\\'))
        let hostPort := (authority.reverse.takeWhile (· ≠ '@')).reverse
        let (host, port) :=
          match hostPort.span (· ≠ ':') with
          | (h, ':' :: p) => (h, some p)
          | (h, _) => ((h : List Char), (none : Option (List Char)))
        if host.isEmpty then none
        else if host.any forbiddenHostChar then none
        else
          match port with
          | none => some (scheme ++ ":")
          | some p =>
            if p.all Char.isDigit && (p.isEmpty || digitsToNat p ≤ 65535) then
              some (scheme ++ ":")
            else none
    else some (scheme ++ ":")

/-- Model of JavaScript `s.includes(c)` for a single character. -/
def jsIncludes (s : String) (c : Char) : Bool := s.data.contains c

/-- Model of JavaScript `s.startsWith(c)` for a single character. -/
def jsStartsWith (s : String) (c : Char) : Bool := s.data.head? = some c

/-- `isValidImageUrl` from the source: empty strings are rejected; a string
the URL constructor accepts is valid iff its protocol is http/https/data;
a string the constructor throws on is valid iff it has no `:` or starts
with `/`. -/
def isValidImageUrl (url : String) : Bool :=
  if url = "" then false
  else
    match urlParse url with
    | some protocol =>
      protocol = "http:" || protocol = "https:" || protocol = "data:"
    | none => !jsIncludes url ':' || jsStartsWith url '/'

/-- `import.meta.env.BASE_URL`, fixed by `base` in `vite.config.ts`. -/
def BASE_URL : String := "/agrosnab-v1.0/"

/-- The placeholder image URL: `${import.meta.env.BASE_URL}placeholder.webp`. -/
def PLACEHOLDER_IMAGE : String := BASE_URL ++ "placeholder.webp"

/-- A normalized product record. -/
structure Product where
  sku : String
  name : String
  descriptionShort : String
  descriptionFull : String
  priceRub : JsNum
  stock : JsNum
  photoUrl : String
  tags : List String
  deriving DecidableEq, Repr

deriving instance DecidableEq for Except

/-- The value of `raw.field` for a base value on which property access does
not throw: a field read on an object, `undefined` on other primitives. -/
def jsField (raw : JSVal) (field : String) : JSVal :=
  match raw with
  | .obj fields => fields.get field
  | _ => .undefined

/-- The body of `normalizeProduct`, once property access on `raw` is known
not to throw. -/
def normalizeFields (raw : JSVal) : Product :=
  let photoUrlRaw := jsTrim (jsToString (jsOr (jsField raw "photoUrl") (.str "")))
  let photoUrl := if isValidImageUrl photoUrlRaw then photoUrlRaw else PLACEHOLDER_IMAGE
  let tagsRaw := jsToString (jsOr (jsField raw "tags") (.str ""))
  { sku := jsToString (jsOr (jsField raw "sku") (.str ""))
    name := jsToString (jsOr (jsField raw "name") (.str ""))
    descriptionShort := jsToString (jsOr (jsField raw "descriptionShort") (.str ""))
    descriptionFull := jsToString (jsOr (jsField raw "descriptionFull") (.str ""))
    priceRub := parseNum (jsField raw "priceRub")
    stock := parseNum (jsField raw "stock")
    photoUrl := if photoUrl = "" then PLACEHOLDER_IMAGE else photoUrl
    tags := ((jsSplitComma tagsRaw).map jsTrim).filter (fun t => t != "") }

/-- `normalizeProduct` from the source. The first member access
(`raw.photoUrl`) throws a `TypeError` when the raw item is `null` or
`undefined` — that exception propagates to `fetchCatalog`'s `catch`; on
every other value the member reads are defensive and never throw, so the
whole body reduces to `normalizeFields`. -/
def normalizeProduct (raw : JSVal) : Except Unit Product :=
  match raw with
  | .undefined => .error ()
  | .nullv => .error ()
  | raw => .ok (normalizeFields raw)

/-- One fetch result (`CatalogResponse` in the source). `generated_at` and
`error` hold raw JS values because the success path copies
`rawData.generated_at` / `rawData.error` through without coercion; `error`
is `none` when the field is absent from the constructed object. -/
structure CatalogResponse where
  generated_at : JSVal
  error : Option JSVal
  items : List Product
  deriving DecidableEq, Repr

/-- A cache entry as serialized by `setCache`. -/
structure CacheEntry where
  data : CatalogResponse
  cachedAt : Nat
  deriving DecidableEq, Repr

/-- Content stored under the cache key: either a string that fails
`JSON.parse`, or a well-formed serialized entry (the only shape `setCache`
ever writes). -/
inductive StoredVal where
  | unparseable
  | entry (e : CacheEntry)
  deriving DecidableEq, Repr

/-- `CACHE_TTL_MS = 5 * 60 * 1000`. -/
def CACHE_TTL_MS : Nat := 5 * 60 * 1000

/-- `getCache` from the source, with the storage slot passed and returned
explicitly: absent or unparseable content reads as `null` (the parse error
is swallowed by the `catch`, which does not remove the entry); an entry
older than the TTL is removed and reads as `null`; otherwise the entry is
returned. -/
def getCache (store : Option StoredVal) (now : Nat) :
    Option CacheEntry × Option StoredVal :=
  match store with
  | none => (none, none)
  | some .unparseable => (none, some .unparseable)
  | some (.entry e) =>
    if now - e.cachedAt > CACHE_TTL_MS then (none, none)
    else (some e, some (.entry e))

/-- `setCache` from the source: write `{ data, cachedAt: Date.now() }`;
a write failure (quota, private mode) is swallowed and leaves the slot
unchanged. -/
def setCache (store : Option StoredVal) (writeFails : Bool)
    (d : CatalogResponse) (now : Nat) : Option StoredVal :=
  if writeFails then store else some (.entry ⟨d, now⟩)

/-- Outcome of the single network round trip attempted by `fetchCatalog`:
the `fetch` call rejecting, a response with `ok === false`, a response body
that fails JSON parsing, or a parsed JSON body. -/
inductive NetOutcome where
  | fail
  | notOk
  | badJson
  | ok (body : JSVal)
  deriving DecidableEq, Repr

/-- The ambient state a `fetchCatalog` call runs in: the session-storage
slot under the cache key, whether a storage write would throw, the
`VITE_APPS_SCRIPT_URL` configuration value, the network outcome the
environment would produce, and the current clock (`Date.now()`, in
epoch milliseconds, taken as one instant for the whole call). -/
structure Env where
  store : Option StoredVal
  writeFails : Bool
  config : Option String
  net : NetOutcome
  now : Nat
  deriving DecidableEq, Repr

/-- `new Date().toISOString()`, modelled as an abstract injective rendering
of the clock (no claim inspects the format of the timestamp string). -/
def dateToISOString (now : Nat) : String := toString now

/-- Truthiness of `import.meta.env.VITE_APPS_SCRIPT_URL`
(`if (!appsScriptUrl)`): absent or empty is falsy. -/
def configTruthy : Option String → Bool
  | none => false
  | some s => s != ""

/-- Map a fallible function over a list, stopping at the first thrown
error (the behavior of `Array.prototype.map` when the callback throws). -/
def mapExcept {α β : Type} (f : α → Except Unit β) : List α → Except Unit (List β)
  | [] => .ok []
  | a :: rest =>
    match f a with
    | .error e => .error e
    | .ok b =>
      match mapExcept f rest with
      | .error e => .error e
      | .ok bs => .ok (b :: bs)

/-- The `try`-block of `fetchCatalog`: issue the request, check
`response.ok`, parse JSON, check `rawData.error`, normalize
`rawData.items`, build the result, and cache it. `.error ()` is a thrown
exception (network failure, HTTP error, JSON parse failure, or member
access / normalization throwing on `null`-ish values), handled by the
caller's `catch`. -/
def fetchBody (env : Env) (store1 : Option StoredVal) :
    Except Unit (CatalogResponse × Option StoredVal) := do
  match env.net with
  | .fail => .error ()
  | .notOk => .error ()
  | .badJson => .error ()
  | .ok body =>
    let errV ← jsMember body "error"
    if jsTruthy errV then
      let genV ← jsMember body "generated_at"
      return ({ generated_at := jsOr genV (.str (dateToISOString env.now)),
                error := some errV, items := [] }, store1)
    else
      let itemsV ← jsMember body "items"
      let items ←
        match itemsV with
        | .arr xs => mapExcept normalizeProduct xs.toList
        | _ => pure []
      let genV ← jsMember body "generated_at"
      let result : CatalogResponse :=
        { generated_at := jsOr genV (.str (dateToISOString env.now)),
          error := none, items := items }
      return (result, setCache store1 env.writeFails result env.now)

/-- `fetchCatalog` from the source, as a function of the ambient
environment, returning the produced `CatalogResponse` together with the
storage slot as left behind by the call. The cache is consulted first; a
hit returns the stored snapshot unchanged. On a miss, a falsy endpoint
configuration yields the fixed not-configured failure snapshot, and
otherwise the `try`-block runs with every thrown exception converted by
the `catch` into the fixed transport-failure snapshot. -/
def fetchCatalog (env : Env) : CatalogResponse × Option StoredVal :=
  let (cached, store1) := getCache env.store env.now
  match cached with
  | some entry => (entry.data, store1)
  | none =>
    if !configTruthy env.config then
      ({ generated_at := .str (dateToISOString env.now),
         error := some (.str "Каталог не настроен"), items := [] }, store1)
    else
      match fetchBody env store1 with
      | .ok v => v
      | .error _ =>
        ({ generated_at := .str (dateToISOString env.now),
           error := some (.str "Не удалось загрузить каталог"), items := [] },
         store1)

/-- A sample successful payload body used to exercise the model. -/
def sampleBody : JSVal :=
  .obj (JSObj.ofList [("items", .arr (JSList.ofList
    [.obj (JSObj.ofList [("sku", .str "B2"), ("name", .str "real")])]))])

/-- A sample successful environment used to exercise the model. -/
def sampleEnv : Env :=
  { store := none, writeFails := false,
    config := some "https://example.com/exec",
    net := .ok sampleBody,
    now := 7 }

/-- The snapshot the sample environment produces. -/
def sampleResp : CatalogResponse :=
  { generated_at := .str "7", error := none,
    items := [{ sku := "B2", name := "real", descriptionShort := "",
                descriptionFull := "", priceRub := .fin Q.zero,
                stock := .fin Q.zero, photoUrl := PLACEHOLDER_IMAGE,
                tags := [] }] }

/-! ## `encodeURIComponent` and the Telegram deep link -/

/-- UTF-8 encoding of one scalar value, as a list of byte values. -/
def utf8Bytes (c : Char) : List Nat :=
  if c.toNat < 0x80 then [c.toNat]
  else if c.toNat < 0x800 then [0xC0 + c.toNat / 64, 0x80 + c.toNat % 64]
  else if c.toNat < 0x10000 then
    [0xE0 + c.toNat / 4096, 0x80 + c.toNat / 64 % 64, 0x80 + c.toNat % 64]
  else
    [0xF0 + c.toNat / 262144, 0x80 + c.toNat / 4096 % 64,
      0x80 + c.toNat / 64 % 64, 0x80 + c.toNat % 64]

/-- The bytes `encodeURIComponent` leaves unescaped:
`A-Z a-z 0-9 - _ . ! ~ * ' ( )`. -/
def uriUnreservedByte (b : Nat) : Bool :=
  (0x41 ≤ b && b ≤ 0x5A) || (0x61 ≤ b && b ≤ 0x7A) || (0x30 ≤ b && b ≤ 0x39) ||
  b = 0x2D || b = 0x5F || b = 0x2E || b = 0x21 || b = 0x7E || b = 0x2A ||
  b = 0x27 || b = 0x28 || b = 0x29

/-- Uppercase hexadecimal digit for a value below 16. -/
def hexChar (n : Nat) : Char :=
  (['0', '1', '2', '3', '4', '5', '6', '7', '8', '9',
    'A', 'B', 'C', 'D', 'E', 'F'].getD n '0')

/-- Percent-encoding of one byte: unreserved bytes stay literal, all others
become `%XX`. -/
def encodeByte (b : Nat) : List Char :=
  if uriUnreservedByte b then [Char.ofNat b]
  else ['%', hexChar (b / 16), hexChar (b % 16)]

/-- The JavaScript `encodeURIComponent` function: UTF-8 encode, then
percent-encode every byte outside the unreserved set. -/
def encodeURIComponent (s : String) : String :=
  String.mk (s.data.flatMap (fun c => (utf8Bytes c).flatMap encodeByte))

/-- `getTelegramDeepLink` from the source. -/
def getTelegramDeepLink (sku : String) : String :=
  "https://t.me/agrosna1b_bot?start=" ++ encodeURIComponent ("sku_" ++ sku)

/-- Value of an uppercase hexadecimal digit character. -/
def hexVal (c : Char) : Nat :=
  if c.isDigit then c.toNat - '0'.toNat else c.toNat - 'A'.toNat + 10

/-- Greedy percent-decoding to byte values: `%XX` triples become one byte,
any other character stands for itself (malformed escapes never arise in
output of the encoder and decode to nothing). -/
def pctDecode : List Char → List Nat
  | [] => []
  | [c] => if c = '%' then [] else [c.toNat]
  | [c, c1] => if c = '%' then [] else c.toNat :: pctDecode [c1]
  | c :: c1 :: c2 :: rest =>
    if c = '%' then (hexVal c1 * 16 + hexVal c2) :: pctDecode rest
    else c.toNat :: pctDecode (c1 :: c2 :: rest)

/-- Greedy UTF-8 decoding of a byte list back to scalar values (no
validation; only applied to well-formed output of `utf8Bytes`). -/
def utf8Decode : List Nat → List Nat
  | [] => []
  | [b] => if b < 0x80 then [b] else []
  | [b, b1] =>
    if b < 0x80 then b :: utf8Decode [b1]
    else if b < 0xE0 then [(b - 0xC0) * 64 + (b1 - 0x80)]
    else []
  | [b, b1, b2] =>
    if b < 0x80 then b :: utf8Decode [b1, b2]
    else if b < 0xE0 then ((b - 0xC0) * 64 + (b1 - 0x80)) :: utf8Decode [b2]
    else if b < 0xF0 then [(b - 0xE0) * 4096 + (b1 - 0x80) * 64 + (b2 - 0x80)]
    else []
  | b :: b1 :: b2 :: b3 :: bs =>
    if b < 0x80 then b :: utf8Decode (b1 :: b2 :: b3 :: bs)
    else if b < 0xE0 then
      ((b - 0xC0) * 64 + (b1 - 0x80)) :: utf8Decode (b2 :: b3 :: bs)
    else if b < 0xF0 then
      ((b - 0xE0) * 4096 + (b1 - 0x80) * 64 + (b2 - 0x80)) :: utf8Decode (b3 :: bs)
    else
      ((b - 0xF0) * 262144 + (b1 - 0x80) * 4096 + (b2 - 0x80) * 64 +
        (b3 - 0x80)) :: utf8Decode bs

/-! ## Derived predicates and concrete inputs used by the theorems -/

/-- The scheme-based acceptance test of the claim: the string parses as an
absolute URL whose protocol is `http:`, `https:` or `data:`. -/
def urlProtocolAllowed (url : String) : Bool :=
  match urlParse url with
  | some protocol =>
    protocol = "http:" || protocol = "https:" || protocol = "data:"
  | none => false

/-- The snapshot built on the success path of `fetchCatalog` for a body,
clock and normalized item list. -/
def successSnapshot (body : JSVal) (now : Nat) (ps : List Product) :
    CatalogResponse :=
  { generated_at := jsOr (jsField body "generated_at") (.str (dateToISOString now)),
    error := none, items := ps }

/-- The snapshot built when the parsed body carries a truthy `error`. -/
def upstreamErrorSnapshot (body : JSVal) (now : Nat) (errV : JSVal) :
    CatalogResponse :=
  { generated_at := jsOr (jsField body "generated_at") (.str (dateToISOString now)),
    error := some errV, items := [] }

/-- A `fetchCatalog` call that ends in a failure result: the cache read
misses, and the endpoint is not configured, or the `try`-block throws
(transport failure, HTTP error, JSON parse failure, or a `TypeError`
during normalization), or the parsed body reports an upstream error. -/
def callFails (env : Env) : Prop :=
  (getCache env.store env.now).1 = none ∧
  (configTruthy env.config = false ∨
    fetchBody env (getCache env.store env.now).2 = .error () ∨
    ∃ body errV, env.net = .ok body ∧ jsMember body "error" = .ok errV ∧
      jsTruthy errV = true)

/-- A raw item whose `sku` is present but empty. -/
def rawEmptySku : JSVal := .obj (JSObj.ofList [("sku", .str "")])

/-- A raw item with SKU `B2`. -/
def rawB2 : JSVal := .obj (JSObj.ofList [("sku", .str "B2"), ("name", .str "real")])

/-- An environment whose payload contains an empty-SKU item followed by a
normal item (the spec's Scenario C). -/
def envScenarioC : Env :=
  { store := none, writeFails := false,
    config := some "https://script.example/exec",
    net := .ok (.obj (JSObj.ofList
      [("items", .arr (JSList.ofList [rawEmptySku, rawB2]))])),
    now := 0 }

/-- A raw item whose price string parses to a negative number. -/
def rawNegPrice : JSVal := .obj (JSObj.ofList [("priceRub", .str "-5")])

/-- The raw item of the spec's Scenario B. -/
def rawScenarioB : JSVal :=
  .obj (JSObj.ofList
    [("sku", .str "A1"), ("priceRub", .str "10,5"), ("stock", .str "3")])

/-- An environment with no endpoint configured. -/
def envNotConfigured : Env :=
  { store := none, writeFails := false, config := none, net := .fail, now := 0 }

/-- An environment holding an expired cache entry, with the network down. -/
def envExpiredThenFail : Env :=
  { store := some (.entry ⟨sampleResp, 0⟩), writeFails := false,
    config := some "https://script.example/exec", net := .fail, now := 400000 }

/-- An environment holding a fresh cache entry. -/
def envCacheHit : Env :=
  { store := some (.entry ⟨sampleResp, 0⟩), writeFails := false,
    config := none, net := .fail, now := 10 }

/-- An environment holding unparseable cache content, with the network
reporting a malformed JSON body. -/
def envUnparseable : Env :=
  { store := some .unparseable, writeFails := false,
    config := some "https://script.example/exec", net := .badJson, now := 0 }

/-! ## Theorems -/

lemma isValidImageUrl_ne_empty {s : String} (h : isValidImageUrl s = true) :
    s ≠ "" := by
  intro h0
  subst h0
  simp [isValidImageUrl] at h

lemma placeholder_ne_empty : PLACEHOLDER_IMAGE ≠ "" := by decide

/-- The `photoUrl` field produced by `normalizeFields`, characterized. -/
lemma normalizeFields_photoUrl (raw : JSVal) :
    (normalizeFields raw).photoUrl ≠ "" ∧
      ((isValidImageUrl ((normalizeFields raw).photoUrl) = true ∧
          (normalizeFields raw).photoUrl =
            jsTrim (jsToString (jsOr (jsField raw "photoUrl") (.str "")))) ∨
        (normalizeFields raw).photoUrl = PLACEHOLDER_IMAGE) := by
  unfold normalizeFields
  by_cases hv :
      isValidImageUrl (jsTrim (jsToString (jsOr (jsField raw "photoUrl") (.str "")))) = true
  · have hne := isValidImageUrl_ne_empty hv
    simp [hv, hne]
  · simp [hv, placeholder_ne_empty]

lemma normalizeProduct_ok {raw : JSVal} {p : Product}
    (h : normalizeProduct raw = .ok p) : p = normalizeFields raw := by
  cases raw <;> simp [normalizeProduct] at h <;> exact h.symm

/-- C9: for every raw record that normalizes, the produced `photoUrl` is
never empty and is never an unvalidated raw value: it is either the trimmed
raw `photoUrl` (then accepted by `isValidImageUrl`) or the fixed
placeholder URL. -/
theorem photoUrl_invariant (raw : JSVal) (p : Product)
    (h : normalizeProduct raw = .ok p) :
    p.photoUrl ≠ "" ∧
      ((isValidImageUrl p.photoUrl = true ∧
          p.photoUrl = jsTrim (jsToString (jsOr (jsField raw "photoUrl") (.str "")))) ∨
        p.photoUrl = PLACEHOLDER_IMAGE) := by
  rw [normalizeProduct_ok h]
  exact normalizeFields_photoUrl raw

/-- Witness for C9 at a concrete record with a dangerous `photoUrl`. -/
theorem photoUrl_invariant_witness :
    (normalizeFields (.obj (JSObj.ofList [("photoUrl", .str "javascript:alert(1)")]))).photoUrl ≠ "" ∧
      ((isValidImageUrl (normalizeFields (.obj (JSObj.ofList [("photoUrl", .str "javascript:alert(1)")]))).photoUrl = true ∧
          (normalizeFields (.obj (JSObj.ofList [("photoUrl", .str "javascript:alert(1)")]))).photoUrl =
            jsTrim (jsToString (jsOr (jsField (.obj (JSObj.ofList [("photoUrl", .str "javascript:alert(1)")])) "photoUrl") (.str "")))) ∨
        (normalizeFields (.obj (JSObj.ofList [("photoUrl", .str "javascript:alert(1)")]))).photoUrl = PLACEHOLDER_IMAGE) :=
  photoUrl_invariant _ _ rfl

/-- C8: Scenario B — the raw item
`{ sku: "A1", priceRub: "10,5", stock: "3" }` normalizes to a product with
`priceRub = 21/2 = 10.5`, `stock = 3`, empty `tags`, and the placeholder
`photoUrl`. -/
theorem scenario_b_normalization :
    normalizeProduct rawScenarioB =
      .ok { sku := "A1", name := "", descriptionShort := "",
            descriptionFull := "", priceRub := .fin ⟨21, 2⟩,
            stock := .fin ⟨3, 1⟩, photoUrl := PLACEHOLDER_IMAGE,
            tags := [] } := by
  decide

/-- The argument `parseNum` receives for the `priceRub` field: the raw
value coerced to a string, first comma turned into a dot, parsed by
`parseFloat`. -/
def priceParsed (raw : JSVal) : JsNum :=
  parseFloat (String.mk (replaceFirstComma (jsToString (jsField raw "priceRub")).data))

/-- C2 counterexample: the raw item `{ priceRub: "-5" }` normalizes to
`priceRub = -5`, a negative number — the claim's "negative input
normalizes to 0" fails. -/
theorem price_negative_counterexample :
    Except.map Product.priceRub (normalizeProduct rawNegPrice) =
        .ok (.fin ⟨-5, 1⟩) ∧
      Q.isNeg ⟨-5, 1⟩ = true ∧ (⟨-5, 1⟩ : Q) ≠ Q.zero := by
  decide

/-- C2 amended: `priceRub` is `0` when the input is unparseable (`NaN`) or
parses to `0`, and is otherwise exactly the parsed value — including
negative values, which pass through unchanged. -/
theorem price_normalization_amended (raw : JSVal) (p : Product)
    (h : normalizeProduct raw = .ok p) :
    (priceParsed raw = .nan → p.priceRub = .fin Q.zero) ∧
      (priceParsed raw = .fin Q.zero → p.priceRub = .fin Q.zero) ∧
      (∀ q : Q, priceParsed raw = .fin q → q ≠ Q.zero → p.priceRub = .fin q) ∧
      (priceParsed raw = .inf → p.priceRub = .inf) ∧
      (priceParsed raw = .negInf → p.priceRub = .negInf) := by
  rw [normalizeProduct_ok h]
  have hpr : (normalizeFields raw).priceRub = parseNum (jsField raw "priceRub") := by
    simp [normalizeFields]
  rw [hpr]
  unfold parseNum
  refine ⟨fun hq => ?_, fun hq => ?_, fun q hq hq0 => ?_, fun hq => ?_, fun hq => ?_⟩ <;>
    rw [show parseFloat (String.mk (replaceFirstComma (jsToString (jsField raw "priceRub")).data)) = priceParsed raw from rfl, hq]
  · rfl
  · simp [jsNumTruthy]
  · simp [jsNumTruthy, bne_iff_ne, hq0]
  · rfl
  · rfl

/-- Witness for C2 (amended) at the concrete record `{ priceRub: "-5" }`. -/
theorem price_normalization_amended_witness :
    (normalizeFields rawNegPrice).priceRub = .fin ⟨-5, 1⟩ :=
  (price_normalization_amended rawNegPrice (normalizeFields rawNegPrice)
    rfl).2.2.1 ⟨-5, 1⟩ (by decide) (by decide)

lemma schemeSplitGo_colon_mem (l : List Char) :
    ∀ acc sp, schemeSplitGo acc l = some sp → ':' ∈ l := by
  induction l with
  | nil => intro acc sp h; simp [schemeSplitGo] at h
  | cons c rest ih =>
    intro acc sp h
    by_cases hc : c = ':'
    · subst hc; exact List.mem_cons_self _ _
    · rw [schemeSplitGo, if_neg hc] at h
      by_cases hs : schemeCharB c = true
      · rw [if_pos hs] at h
        exact List.mem_cons_of_mem _ (ih _ _ h)
      · rw [if_neg hs] at h
        exact absurd h (by simp)

lemma schemeSplit_colon_mem {l : List Char} {sp : List Char × List Char}
    (h : schemeSplit l = some sp) : ':' ∈ l := by
  cases l with
  | nil => simp [schemeSplit] at h
  | cons c rest =>
    rw [schemeSplit] at h
    by_cases ha : c.isAlpha = true
    · rw [if_pos ha] at h
      by_cases hc : c = ':'
      · subst hc; exact List.mem_cons_self _ _
      · exact List.mem_cons_of_mem _ (schemeSplitGo_colon_mem rest [c] sp h)
    · rw [if_neg ha] at h
      exact absurd h (by simp)

lemma cleanUrl_mem {c : Char} {s : String} (h : c ∈ cleanUrl s) : c ∈ s.data := by
  unfold cleanUrl dropTrailingWhile at h
  have h1 := List.mem_reverse.mp h
  have h2 := (List.dropWhile_sublist _).subset h1
  have h3 := List.mem_reverse.mp h2
  have h4 := (List.dropWhile_sublist _).subset h3
  exact (List.mem_filter.mp h4).1

lemma urlParse_includes_colon {url : String} {p : String}
    (h : urlParse url = some p) : jsIncludes url ':' = true := by
  unfold urlParse at h
  rcases hs : schemeSplit (cleanUrl url) with _ | sp
  · rw [hs] at h; exact absurd h (by simp)
  · have hm : ':' ∈ cleanUrl url := schemeSplit_colon_mem hs
    have := cleanUrl_mem hm
    simp [jsIncludes, List.elem_iff, this]

lemma dropTrailingWhile_cons {p : Char → Bool} {x : Char} (xs : List Char)
    (hx : p x = false) :
    dropTrailingWhile p (x :: xs) = x :: dropTrailingWhile p xs := by
  unfold dropTrailingWhile
  rw [List.reverse_cons, List.dropWhile_append]
  by_cases he : (xs.reverse.dropWhile p).isEmpty
  · have hnil : xs.reverse.dropWhile p = [] := by
      simpa [List.isEmpty_iff] using he
    simp [he, hnil, List.dropWhile, hx]
  · simp [he]

lemma urlParse_slash_none {url : String} (h : jsStartsWith url '/' = true) :
    urlParse url = none := by
  rcases hd : url.data with _ | ⟨c, rest⟩
  · simp [jsStartsWith, hd] at h
  · have hc : c = '/' := by
      simpa [jsStartsWith, hd] using h
    subst hc
    have hclean : ∃ l, cleanUrl url = '/' :: l := by
      unfold cleanUrl
      rw [hd]
      rw [show (('/' : Char) :: rest).filter (fun c => !urlStripChar c) =
            '/' :: rest.filter (fun c => !urlStripChar c) from by
          simp [List.filter, urlStripChar]]
      rw [show List.dropWhile urlTrimChar
            ('/' :: rest.filter (fun c => !urlStripChar c)) =
            '/' :: rest.filter (fun c => !urlStripChar c) from by
          simp [List.dropWhile, urlTrimChar]]
      exact ⟨_, dropTrailingWhile_cons _ (by decide)⟩
    obtain ⟨l, hl⟩ := hclean
    unfold urlParse
    rw [hl]
    simp [schemeSplit]

lemma urlParse_not_slash {url : String} {p : String}
    (h : urlParse url = some p) : jsStartsWith url '/' = false := by
  by_cases hs : jsStartsWith url '/' = true
  · rw [urlParse_slash_none hs] at h; exact absurd h (by simp)
  · simpa using hs

/-- C7 counterexample: at the empty string the claim's "if and only if"
fails as stated — the empty string contains no `:` (so the right-hand side
holds) yet `isValidImageUrl` returns `false`. -/
theorem image_url_iff_counterexample :
    ¬(isValidImageUrl "" = true ↔
        (urlProtocolAllowed "" = true ∨ jsIncludes "" ':' = false ∨
          jsStartsWith "" '/' = true)) := by
  decide

/-- C7 amended: for every string, `isValidImageUrl url` is true iff `url`
is non-empty AND (it parses as an absolute URL with scheme http/https/data,
or contains no `:`, or begins with `/`). -/
theorem image_url_validity_amended (url : String) :
    isValidImageUrl url = true ↔
      (url ≠ "" ∧
        (urlProtocolAllowed url = true ∨ jsIncludes url ':' = false ∨
          jsStartsWith url '/' = true)) := by
  by_cases h0 : url = ""
  · subst h0
    simp [isValidImageUrl]
  · rcases hp : urlParse url with _ | p
    · rw [isValidImageUrl, if_neg h0, hp]
      simp only [urlProtocolAllowed, hp]
      cases ha : jsIncludes url ':' <;> cases hb : jsStartsWith url '/' <;>
        simp [h0]
    · have hinc := urlParse_includes_colon hp
      have hsl := urlParse_not_slash hp
      rw [isValidImageUrl, if_neg h0, hp]
      simp only [urlProtocolAllowed, hp, hinc, hsl]
      simp [h0]

/-- Witness for C7 (amended): a root-relative path is accepted, and the
`javascript:` URL of Scenario E is rejected. -/
theorem image_url_validity_amended_witness :
    isValidImageUrl "/img/a.png" = true ∧
      isValidImageUrl "javascript:alert(1)" = false := by
  constructor
  · exact (image_url_validity_amended "/img/a.png").mpr (by decide)
  · have h := image_url_validity_amended "javascript:alert(1)"
    by_cases hv : isValidImageUrl "javascript:alert(1)" = true
    · exact absurd (h.mp hv) (by decide)
    · simpa using hv

lemma char_toNat_lt_limit (c : Char) : c.toNat < 0x110000 := by
  rcases c.valid with h | ⟨_, h⟩
  · exact Nat.lt_trans h (by norm_num)
  · exact h

lemma char_toNat_inj : Function.Injective Char.toNat := by
  intro a b h
  rw [← Char.ofNat_toNat a, ← Char.ofNat_toNat b, h]

lemma hexVal_hexChar : ∀ x < 16, hexVal (hexChar x) = x := by decide

set_option maxRecDepth 4096 in
lemma unreserved_byte_char : ∀ b < 256, uriUnreservedByte b = true →
    (Char.ofNat b ≠ '%' ∧ (Char.ofNat b).toNat = b) := by decide

lemma pctDecode_cons_ne {c : Char} (hne : c ≠ '%') (r : List Char) :
    pctDecode (c :: r) = c.toNat :: pctDecode r := by
  match r with
  | [] => simp [pctDecode, hne]
  | [c1] => simp [pctDecode, hne]
  | c1 :: c2 :: rest => simp [pctDecode, hne]

lemma pctDecode_encodeByte {b : Nat} (hb : b < 256) (r : List Char) :
    pctDecode (encodeByte b ++ r) = b :: pctDecode r := by
  unfold encodeByte
  by_cases hu : uriUnreservedByte b = true
  · rw [if_pos hu]
    obtain ⟨hne, htn⟩ := unreserved_byte_char b hb hu
    rw [List.singleton_append, pctDecode_cons_ne hne, htn]
  · rw [if_neg hu]
    have h1 : hexVal (hexChar (b / 16)) = b / 16 := hexVal_hexChar _ (by omega)
    have h2 : hexVal (hexChar (b % 16)) = b % 16 := hexVal_hexChar _ (by omega)
    show pctDecode ('%' :: hexChar (b / 16) :: hexChar (b % 16) :: r) = _
    rw [pctDecode, if_pos rfl, h1, h2]
    congr 1
    omega

lemma pctDecode_encodeBytes {bs : List Nat} (hb : ∀ b ∈ bs, b < 256)
    (r : List Char) :
    pctDecode (bs.flatMap encodeByte ++ r) = bs ++ pctDecode r := by
  induction bs with
  | nil => simp
  | cons b rest ih =>
    rw [List.flatMap_cons, List.append_assoc,
      pctDecode_encodeByte (hb b (by simp)),
      ih (fun x hx => hb x (by simp [hx]))]
    rfl

lemma utf8Bytes_lt (c : Char) : ∀ b ∈ utf8Bytes c, b < 256 := by
  have hv := char_toNat_lt_limit c
  unfold utf8Bytes
  split_ifs with h1 h2 h3 <;> intro b hb <;> simp at hb <;> omega

lemma utf8Decode_step1 {b : Nat} (h : b < 0x80) (bs : List Nat) :
    utf8Decode (b :: bs) = b :: utf8Decode bs := by
  match bs with
  | [] => simp [utf8Decode, h]
  | [b1] => simp [utf8Decode, h]
  | [b1, b2] => simp [utf8Decode, h]
  | b1 :: b2 :: b3 :: rest => simp [utf8Decode, h]

lemma utf8Decode_step2 {b b1 : Nat} (h1 : ¬b < 0x80) (h2 : b < 0xE0)
    (bs : List Nat) :
    utf8Decode (b :: b1 :: bs) =
      ((b - 0xC0) * 64 + (b1 - 0x80)) :: utf8Decode bs := by
  match bs with
  | [] => simp [utf8Decode, h1, h2]
  | [b2] => simp [utf8Decode, h1, h2]
  | b2 :: b3 :: rest => simp [utf8Decode, h1, h2]

lemma utf8Decode_step3 {b b1 b2 : Nat} (h1 : ¬b < 0x80) (h2 : ¬b < 0xE0)
    (h3 : b < 0xF0) (bs : List Nat) :
    utf8Decode (b :: b1 :: b2 :: bs) =
      ((b - 0xE0) * 4096 + (b1 - 0x80) * 64 + (b2 - 0x80)) :: utf8Decode bs := by
  match bs with
  | [] => simp [utf8Decode, h1, h2, h3]
  | b3 :: rest => simp [utf8Decode, h1, h2, h3]

lemma utf8Decode_step4 {b b1 b2 b3 : Nat} (h1 : ¬b < 0x80) (h2 : ¬b < 0xE0)
    (h3 : ¬b < 0xF0) (bs : List Nat) :
    utf8Decode (b :: b1 :: b2 :: b3 :: bs) =
      ((b - 0xF0) * 262144 + (b1 - 0x80) * 4096 + (b2 - 0x80) * 64 +
        (b3 - 0x80)) :: utf8Decode bs := by
  simp [utf8Decode, h1, h2, h3]

set_option maxRecDepth 4096 in
lemma utf8Decode_utf8Bytes (c : Char) (bs : List Nat) :
    utf8Decode (utf8Bytes c ++ bs) = c.toNat :: utf8Decode bs := by
  have hv := char_toNat_lt_limit c
  unfold utf8Bytes
  split_ifs with h1 h2 h3
  · rw [List.singleton_append, utf8Decode_step1 h1]
  · rw [List.cons_append, List.cons_append, List.nil_append,
      utf8Decode_step2 (by omega) (by omega)]
    congr 1
    omega
  · rw [List.cons_append, List.cons_append, List.cons_append, List.nil_append,
      utf8Decode_step3 (by omega) (by omega) (by omega)]
    congr 1
    omega
  · rw [List.cons_append, List.cons_append, List.cons_append, List.cons_append,
      List.nil_append, utf8Decode_step4 (by omega) (by omega) (by omega)]
    congr 1
    omega

lemma decode_encodeList (cs : List Char) :
    utf8Decode (pctDecode
        (cs.flatMap (fun c => (utf8Bytes c).flatMap encodeByte))) =
      cs.map Char.toNat := by
  induction cs with
  | nil => rfl
  | cons c rest ih =>
    rw [List.flatMap_cons, pctDecode_encodeBytes (utf8Bytes_lt c),
      utf8Decode_utf8Bytes, ih, List.map_cons]

lemma encodeURIComponent_inj {s1 s2 : String}
    (h : encodeURIComponent s1 = encodeURIComponent s2) : s1 = s2 := by
  unfold encodeURIComponent at h
  have hd : s1.data.flatMap (fun c => (utf8Bytes c).flatMap encodeByte) =
      s2.data.flatMap (fun c => (utf8Bytes c).flatMap encodeByte) :=
    congrArg String.data h
  have hm : s1.data.map Char.toNat = s2.data.map Char.toNat := by
    rw [← decode_encodeList s1.data, ← decode_encodeList s2.data, hd]
  have hdata : s1.data = s2.data := List.map_injective_iff.mpr char_toNat_inj hm
  cases s1
  cases s2
  exact congrArg String.mk hdata

lemma string_append_left_cancel {p x y : String} (h : p ++ x = p ++ y) :
    x = y := by
  have hd := congrArg String.data h
  rw [String.data_append, String.data_append] at hd
  have hxy := List.append_cancel_left hd
  cases x
  cases y
  exact congrArg String.mk hxy

/-- C10: `getTelegramDeepLink` is a pure function of the SKU whose output
is the fixed prefix followed by `encodeURIComponent("sku_" + sku)`, and it
is injective on SKU strings. -/
theorem deep_link_injective_and_format :
    (∀ a b : String, getTelegramDeepLink a = getTelegramDeepLink b → a = b) ∧
      ∀ sku : String,
        getTelegramDeepLink sku =
          "https://t.me/agrosna1b_bot?start=" ++
            encodeURIComponent ("sku_" ++ sku) := by
  constructor
  · intro a b h
    unfold getTelegramDeepLink at h
    exact string_append_left_cancel
      (encodeURIComponent_inj (string_append_left_cancel h))
  · intro sku
    rfl

/-- Witness for C10 at the concrete SKU `A1`. -/
theorem deep_link_witness :
    getTelegramDeepLink "A1" =
        "https://t.me/agrosna1b_bot?start=" ++
          encodeURIComponent ("sku_" ++ "A1") ∧
      ("A1" : String) = "A1" :=
  ⟨deep_link_injective_and_format.2 "A1",
    deep_link_injective_and_format.1 "A1" "A1" rfl⟩

lemma jsMember_ok_ne {v : JSVal} {f : String} {r : JSVal}
    (h : jsMember v f = .ok r) : v ≠ .undefined ∧ v ≠ .nullv := by
  constructor <;> intro hv <;> subst hv <;> simp [jsMember] at h

lemma jsMember_ok {v : JSVal} (h1 : v ≠ .undefined) (h2 : v ≠ .nullv)
    (f : String) : jsMember v f = .ok (jsField v f) := by
  cases v <;> first | exact absurd rfl h1 | exact absurd rfl h2 | rfl

/-- Explicit case tree of `fetchBody`, used to reason about it. -/
def fetchBodySpec (env : Env) (store1 : Option StoredVal) :
    Except Unit (CatalogResponse × Option StoredVal) :=
  match env.net with
  | .fail => .error ()
  | .notOk => .error ()
  | .badJson => .error ()
  | .ok body =>
    if body = .undefined ∨ body = .nullv then .error ()
    else if jsTruthy (jsField body "error") then
      .ok (upstreamErrorSnapshot body env.now (jsField body "error"), store1)
    else
      match jsField body "items" with
      | .arr xs =>
        match mapExcept normalizeProduct xs.toList with
        | .error e => .error e
        | .ok ps =>
          .ok (successSnapshot body env.now ps,
            setCache store1 env.writeFails (successSnapshot body env.now ps) env.now)
      | _ =>
        .ok (successSnapshot body env.now [],
          setCache store1 env.writeFails (successSnapshot body env.now []) env.now)

lemma fetchBody_eq_spec (env : Env) (store1 : Option StoredVal) :
    fetchBody env store1 = fetchBodySpec env store1 := by
  unfold fetchBody fetchBodySpec
  rcases env.net with _ | _ | _ | body <;> try rfl
  cases body with
  | undefined => simp [jsMember, Bind.bind, Except.bind]
  | nullv => simp [jsMember, Bind.bind, Except.bind]
  | bool b =>
    simp [jsMember, jsField, Bind.bind, Except.bind, pure, Except.pure,
      jsTruthy, successSnapshot]
  | num n =>
    simp [jsMember, jsField, Bind.bind, Except.bind, pure, Except.pure,
      jsTruthy, successSnapshot]
  | str s =>
    simp [jsMember, jsField, Bind.bind, Except.bind, pure, Except.pure,
      jsTruthy, successSnapshot]
  | arr es =>
    simp [jsMember, jsField, Bind.bind, Except.bind, pure, Except.pure,
      jsTruthy, successSnapshot]
  | obj fs =>
    dsimp only
    rw [if_neg (by simp)]
    dsimp only [jsMember, jsField, Bind.bind, Except.bind, pure, Except.pure]
    split_ifs with ht
    · rfl
    · rcases hget : fs.get "items" with _ | _ | b | n | s | xs | fs2 <;>
        simp only [hget] <;> try rfl
      rcases hm : mapExcept normalizeProduct xs.toList with e | ps <;>
        simp [hm, successSnapshot, jsField]

lemma fetchBody_upstream {env : Env} (store1 : Option StoredVal)
    {body errV : JSVal}
    (hnet : env.net = .ok body)
    (herr : jsMember body "error" = .ok errV)
    (htr : jsTruthy errV = true) :
    fetchBody env store1 =
      .ok (upstreamErrorSnapshot body env.now errV, store1) := by
  obtain ⟨h1, h2⟩ := jsMember_ok_ne herr
  rw [jsMember_ok h1 h2] at herr
  have hfe : jsField body "error" = errV := by
    injection herr
  rw [fetchBody_eq_spec]
  unfold fetchBodySpec
  rw [hnet]
  dsimp only
  rw [if_neg (by simp [h1, h2]), hfe, if_pos htr]

lemma fetchBody_success {env : Env} (store1 : Option StoredVal) {body : JSVal}
    {xs : JSList} {ps : List Product}
    (hnet : env.net = .ok body)
    (h1 : body ≠ .undefined) (h2 : body ≠ .nullv)
    (herr : jsTruthy (jsField body "error") = false)
    (hitems : jsField body "items" = .arr xs)
    (hnorm : mapExcept normalizeProduct xs.toList = .ok ps) :
    fetchBody env store1 =
      .ok (successSnapshot body env.now ps,
        setCache store1 env.writeFails (successSnapshot body env.now ps) env.now) := by
  rw [fetchBody_eq_spec]
  unfold fetchBodySpec
  rw [hnet]
  dsimp only
  rw [if_neg (by simp [h1, h2]), if_neg (by simp [herr]), hitems]
  dsimp only
  rw [hnorm]

lemma fetchBody_ok_inversion {env : Env} {store1 : Option StoredVal}
    {r : CatalogResponse} {st : Option StoredVal}
    (h : fetchBody env store1 = .ok (r, st)) :
    (∃ errV, r.error = some errV ∧ jsTruthy errV = true ∧ st = store1) ∨
      (r.error = none ∧ st = setCache store1 env.writeFails r env.now) := by
  rw [fetchBody_eq_spec] at h
  unfold fetchBodySpec at h
  cases hnet : env.net with
  | fail => rw [hnet] at h; exact absurd h (by simp)
  | notOk => rw [hnet] at h; exact absurd h (by simp)
  | badJson => rw [hnet] at h; exact absurd h (by simp)
  | ok body => ?_
  rw [hnet] at h
  dsimp only at h
  by_cases hnull : body = .undefined ∨ body = .nullv
  · rw [if_pos hnull] at h
    exact absurd h (by simp)
  · rw [if_neg hnull] at h
    have finish2 : ∀ ps0 : List Product,
        (Except.ok (successSnapshot body env.now ps0,
            setCache store1 env.writeFails (successSnapshot body env.now ps0) env.now) :
          Except Unit (CatalogResponse × Option StoredVal)) =
          .ok (r, st) →
        r.error = none ∧ st = setCache store1 env.writeFails r env.now := by
      intro ps0 hh
      injection hh with h1
      have hr : successSnapshot body env.now ps0 = r := congrArg Prod.fst h1
      have hst : setCache store1 env.writeFails (successSnapshot body env.now ps0) env.now = st :=
        congrArg Prod.snd h1
      refine ⟨by rw [← hr]; rfl, by rw [← hst, hr]⟩
    by_cases ht : jsTruthy (jsField body "error") = true
    · rw [if_pos ht] at h
      left
      injection h with h1
      have hr : upstreamErrorSnapshot body env.now (jsField body "error") = r :=
        congrArg Prod.fst h1
      have hst : store1 = st := congrArg Prod.snd h1
      exact ⟨jsField body "error", by rw [← hr]; rfl, ht, hst.symm⟩
    · rw [if_neg ht] at h
      right
      rcases hget : jsField body "items" with _ | _ | b | n | s | xs | fs2 <;>
        rw [hget] at h <;> (try dsimp only at h) <;> try exact finish2 [] h
      rcases hm : mapExcept normalizeProduct xs.toList with e | ps <;> rw [hm] at h <;>
        (try dsimp only at h)
      · exact absurd h (by simp)
      · exact finish2 ps h

lemma jsTruthy_notConfigured : jsTruthy (.str "Каталог не настроен") = true := by
  decide

lemma jsTruthy_loadFailed :
    jsTruthy (.str "Не удалось загрузить каталог") = true := by decide

/-- C3: whenever a `fetchCatalog` call ends in one of the failure cases
(endpoint not configured; the `try`-block throws on transport failure,
HTTP error, malformed JSON, or normalization; upstream-reported error),
the call still returns a fully-formed snapshot — failure is represented as
data, via a truthy `error` field together with empty `items`. The model's
`fetchCatalog` is a total function with every throw-site made explicit in
`fetchBody`'s `Except` and discharged by the `catch`, so no exception ever
reaches the caller. -/
theorem failure_represented_as_data (env : Env) (h : callFails env) :
    ∃ e, ((fetchCatalog env).1).error = some e ∧ jsTruthy e = true ∧
      ((fetchCatalog env).1).items = [] := by
  obtain ⟨hmiss, hcase⟩ := h
  rcases hg : getCache env.store env.now with ⟨copt, st1⟩
  rw [hg] at hmiss
  replace hmiss : copt = none := hmiss
  subst hmiss
  rw [hg] at hcase
  unfold fetchCatalog
  rw [hg]
  dsimp only
  by_cases hc : configTruthy env.config = true
  · rw [hc, Bool.not_true, if_neg (by simp)]
    rcases hcase with hcf | hberr | ⟨body, errV, hnet, herr, htr⟩
    · rw [hcf] at hc
      exact absurd hc (by simp)
    · replace hberr : fetchBody env st1 = .error () := hberr
      rw [hberr]
      exact ⟨_, rfl, jsTruthy_loadFailed, rfl⟩
    · rw [fetchBody_upstream st1 hnet herr htr]
      exact ⟨errV, rfl, htr, rfl⟩
  · rw [show configTruthy env.config = false from by simpa using hc,
      Bool.not_false, if_pos rfl]
    exact ⟨_, rfl, jsTruthy_notConfigured, rfl⟩

/-- Witness for C3: with no endpoint configured and an empty cache, the
result carries a truthy error and empty items. -/
theorem failure_represented_as_data_witness :
    ∃ e, ((fetchCatalog envNotConfigured).1).error = some e ∧
      jsTruthy e = true ∧ ((fetchCatalog envNotConfigured).1).items = [] :=
  failure_represented_as_data envNotConfigured ⟨by decide, .inl (by decide)⟩

/-- C4: a `fetchCatalog` call that ends in a failure result performs no
cache write — the store after the call equals the store right after the
initial cache read, so a failed attempt never overwrites a previously
stored entry. -/
theorem failed_call_writes_no_cache (env : Env) (h : callFails env) :
    (fetchCatalog env).2 = (getCache env.store env.now).2 := by
  obtain ⟨hmiss, hcase⟩ := h
  rcases hg : getCache env.store env.now with ⟨copt, st1⟩
  rw [hg] at hmiss
  replace hmiss : copt = none := hmiss
  subst hmiss
  rw [hg] at hcase
  unfold fetchCatalog
  rw [hg]
  dsimp only
  by_cases hc : configTruthy env.config = true
  · rw [hc, Bool.not_true, if_neg (by simp)]
    rcases hcase with hcf | hberr | ⟨body, errV, hnet, herr, htr⟩
    · rw [hcf] at hc
      exact absurd hc (by simp)
    · replace hberr : fetchBody env st1 = .error () := hberr
      rw [hberr]
    · rw [fetchBody_upstream st1 hnet herr htr]
  · rw [show configTruthy env.config = false from by simpa using hc,
      Bool.not_false, if_pos rfl]

/-- Witness for C4: an expired entry followed by a transport failure — the
stale entry was removed by the read, and the failed call writes nothing. -/
theorem failed_call_writes_no_cache_witness :
    (fetchCatalog envExpiredThenFail).2 =
      (getCache envExpiredThenFail.store envExpiredThenFail.now).2 :=
  failed_call_writes_no_cache envExpiredThenFail
    ⟨by decide, .inr (.inl (by decide))⟩

/-- C5: (a) a cache read that finds an entry whose age is within the TTL
makes `fetchCatalog` return exactly the stored snapshot, leave the store
untouched, and ignore the network entirely (the result is the same for
every network outcome — no request is issued, no re-normalization runs);
(b) after a successful (cached) first call, a second call 10 seconds later
returns the same snapshot and store, again for every network outcome. -/
theorem cache_hit_and_second_call :
    (∀ (env : Env) (e : CacheEntry), env.store = some (.entry e) →
      env.now - e.cachedAt ≤ CACHE_TTL_MS →
      fetchCatalog env = (e.data, env.store) ∧
        ∀ net2, fetchCatalog { env with net := net2 } = (e.data, env.store)) ∧
      ∀ (env : Env) (body : JSVal) (r : CatalogResponse) (st : Option StoredVal),
        env.net = .ok body → env.writeFails = false →
        (getCache env.store env.now).1 = none →
        configTruthy env.config = true →
        fetchBody env (getCache env.store env.now).2 = .ok (r, st) →
        r.error = none →
        fetchCatalog env = (r, st) ∧
          ∀ net2,
            fetchCatalog
              { store := st, writeFails := false, config := env.config,
                net := net2, now := env.now + 10000 } =
              (r, st) := by
  constructor
  · intro env e hs hage
    have hget : getCache env.store env.now = (some e, env.store) := by
      rw [hs]
      show (if env.now - e.cachedAt > CACHE_TTL_MS then
          ((none : Option CacheEntry), (none : Option StoredVal))
        else (some e, some (.entry e))) = (some e, some (.entry e))
      rw [if_neg (by omega)]
    constructor
    · unfold fetchCatalog
      rw [hget]
    · intro net2
      unfold fetchCatalog
      dsimp only
      rw [hget]
  · intro env body r st hnet hwf hmiss hcfg hb herrnone
    rcases hg : getCache env.store env.now with ⟨copt, st1⟩
    rw [hg] at hmiss hb
    replace hmiss : copt = none := hmiss
    subst hmiss
    replace hb : fetchBody env st1 = .ok (r, st) := hb
    have h1 : fetchCatalog env = (r, st) := by
      unfold fetchCatalog
      rw [hg]
      dsimp only
      rw [hcfg, Bool.not_true, if_neg (by simp), hb]
    refine ⟨h1, ?_⟩
    intro net2
    rcases fetchBody_ok_inversion hb with ⟨errV, herrV, _, _⟩ | ⟨_, hst⟩
    · rw [herrnone] at herrV
      exact absurd herrV (by simp)
    · rw [hwf] at hst
      have hst2 : st = some (.entry ⟨r, env.now⟩) := by
        rw [hst]
        rfl
      have hget2 : getCache st (env.now + 10000) = (some ⟨r, env.now⟩, st) := by
        rw [hst2]
        show (if env.now + 10000 - (⟨r, env.now⟩ : CacheEntry).cachedAt > CACHE_TTL_MS then
            ((none : Option CacheEntry), (none : Option StoredVal))
          else (some ⟨r, env.now⟩, some (.entry ⟨r, env.now⟩))) = _
        rw [if_neg (by simp [CACHE_TTL_MS])]
      unfold fetchCatalog
      dsimp only
      rw [hget2]

/-- Witness for C5: a fresh cache entry is returned as-is, and a second
call 10 seconds after the sample success returns the first snapshot. -/
theorem cache_hit_and_second_call_witness :
    fetchCatalog envCacheHit = (sampleResp, envCacheHit.store) ∧
      fetchCatalog sampleEnv = (sampleResp, some (.entry ⟨sampleResp, 7⟩)) ∧
      fetchCatalog
          { store := some (.entry ⟨sampleResp, 7⟩), writeFails := false,
            config := sampleEnv.config, net := .fail, now := 7 + 10000 } =
        (sampleResp, some (.entry ⟨sampleResp, 7⟩)) := by
  refine ⟨(cache_hit_and_second_call.1 envCacheHit ⟨sampleResp, 0⟩ rfl (by decide)).1,
    (cache_hit_and_second_call.2 sampleEnv sampleBody sampleResp
      (some (.entry ⟨sampleResp, 7⟩)) rfl rfl (by decide) (by decide)
      (by decide) (by decide)).1,
    (cache_hit_and_second_call.2 sampleEnv sampleBody sampleResp
      (some (.entry ⟨sampleResp, 7⟩)) rfl rfl (by decide) (by decide)
      (by decide) (by decide)).2 .fail⟩

lemma fetchBody_fst_indep (env : Env) (s1 s2 : Option StoredVal) :
    (fetchBody env s1).map Prod.fst = (fetchBody env s2).map Prod.fst := by
  rw [fetchBody_eq_spec, fetchBody_eq_spec]
  unfold fetchBodySpec
  rcases env.net with _ | _ | _ | body <;> try rfl
  dsimp only
  split_ifs <;> try rfl
  rcases hget : jsField body "items" with _ | _ | b | n | s | xs | fs2 <;>
    simp only [hget] <;> try rfl
  rcases hm : mapExcept normalizeProduct xs.toList with e | ps <;>
    simp [hm, Except.map]

/-- C6: a stored entry older than the TTL is never returned by the cache
read — the read misses, removes the entry, and the call proceeds exactly
as a call with an empty cache slot (fresh network fetch); stored content
that fails to parse likewise reads as a miss (without removal) and the
call produces the same snapshot as with an empty slot. -/
theorem expired_or_unparseable_cache_is_missed :
    (∀ (env : Env) (e : CacheEntry), env.store = some (.entry e) →
        env.now - e.cachedAt > CACHE_TTL_MS →
        getCache env.store env.now = (none, none) ∧
          fetchCatalog env = fetchCatalog { env with store := none }) ∧
      ∀ env : Env, env.store = some .unparseable →
        (getCache env.store env.now).1 = none ∧
          (fetchCatalog env).1 = (fetchCatalog { env with store := none }).1 := by
  constructor
  · intro env e hs hage
    have hget : getCache env.store env.now = (none, none) := by
      rw [hs]
      show (if env.now - e.cachedAt > CACHE_TTL_MS then
          ((none : Option CacheEntry), (none : Option StoredVal))
        else (some e, some (.entry e))) = (none, none)
      rw [if_pos hage]
    refine ⟨hget, ?_⟩
    unfold fetchCatalog
    rw [hget]
    rfl
  · intro env hs
    have hget : getCache env.store env.now = (none, some .unparseable) := by
      rw [hs]
      rfl
    refine ⟨by rw [hget], ?_⟩
    unfold fetchCatalog
    rw [hget]
    have hget0 : getCache ({ env with store := none } : Env).store
        ({ env with store := none } : Env).now = (none, none) := rfl
    rw [hget0]
    dsimp only
    by_cases hc : configTruthy env.config = true
    · rw [hc, Bool.not_true, if_neg (by simp), if_neg (by simp)]
      have hfb2 : fetchBody { env with store := none } (none : Option StoredVal) =
          fetchBody env (none : Option StoredVal) := rfl
      rw [hfb2]
      have hfst := fetchBody_fst_indep env (some .unparseable) none
      rcases hb1 : fetchBody env (some .unparseable) with e1 | pr1 <;>
        rcases hb2 : fetchBody env (none : Option StoredVal) with e2 | pr2 <;>
        rw [hb1, hb2] at hfst <;> simp [Except.map] at hfst <;> try dsimp only
      exact hfst

    · rw [show configTruthy env.config = false from by simpa using hc,
        Bool.not_false, if_pos rfl, if_pos rfl]

/-- Witness for C6: an expired entry is removed and the call fetches
fresh; unparseable content is treated as a miss. -/
theorem expired_or_unparseable_witness :
    (getCache envExpiredThenFail.store envExpiredThenFail.now = (none, none) ∧
        fetchCatalog envExpiredThenFail =
          fetchCatalog { envExpiredThenFail with store := none }) ∧
      ((getCache envUnparseable.store envUnparseable.now).1 = none ∧
        (fetchCatalog envUnparseable).1 =
          (fetchCatalog { envUnparseable with store := none }).1) :=
  ⟨expired_or_unparseable_cache_is_missed.1 envExpiredThenFail ⟨sampleResp, 0⟩
      rfl (by decide),
    expired_or_unparseable_cache_is_missed.2 envUnparseable rfl⟩

lemma mapExcept_ok_length {α β : Type} {f : α → Except Unit β} :
    ∀ {l : List α} {l2 : List β}, mapExcept f l = .ok l2 → l2.length = l.length := by
  intro l
  induction l with
  | nil =>
    intro l2 h
    simp [mapExcept] at h
    simp [h]
  | cons a rest ih =>
    intro l2 h
    rw [mapExcept] at h
    rcases ha : f a with e | b <;> rw [ha] at h <;> dsimp only at h
    · exact absurd h (by simp)
    · rcases hr : mapExcept f rest with e2 | bs <;> rw [hr] at h <;>
        dsimp only at h
      · exact absurd h (by simp)
      · injection h with h1
        rw [← h1]
        simp [ih hr]

/-- C1 counterexample: a payload whose first item has an empty `sku` — the
returned `items` keeps both items (the empty-SKU item is NOT excluded),
where the claim (and the spec's Scenario C) require it to be dropped and
only `B2` returned. -/
theorem empty_sku_kept_counterexample :
    ((fetchCatalog envScenarioC).1.items.map Product.sku) = ["", "B2"] ∧
      (fetchCatalog envScenarioC).1.items.length = 2 := by
  decide

/-- C1 amended: `fetchCatalog` performs no SKU-based filtering. When the
payload's `items` normalize without a thrown `TypeError`, every payload
item is kept, in order, as its `normalizeProduct` image — including items
whose `sku` is empty or missing (their `sku` normalizes to `""`). The
empty-SKU drop rule described by the spec lives upstream, in the Apps
Script `doGet`, not in this client. -/
theorem items_kept_not_filtered (env : Env) (body : JSVal) (xs : JSList)
    (ps : List Product)
    (hmiss : (getCache env.store env.now).1 = none)
    (hcfg : configTruthy env.config = true)
    (hnet : env.net = .ok body)
    (h1 : body ≠ .undefined) (h2 : body ≠ .nullv)
    (herr : jsTruthy (jsField body "error") = false)
    (hitems : jsField body "items" = .arr xs)
    (hnorm : mapExcept normalizeProduct xs.toList = .ok ps) :
    (fetchCatalog env).1.items = ps ∧ ps.length = xs.toList.length := by
  rcases hg : getCache env.store env.now with ⟨copt, st1⟩
  rw [hg] at hmiss
  replace hmiss : copt = none := hmiss
  subst hmiss
  have hb := fetchBody_success st1 hnet h1 h2 herr hitems hnorm
  unfold fetchCatalog
  rw [hg]
  dsimp only
  rw [hcfg, Bool.not_true, if_neg (by simp), hb]
  exact ⟨rfl, mapExcept_ok_length hnorm⟩

/-- Witness for C1 (amended) on the Scenario C payload: both items are
kept, the first with an empty SKU. -/
theorem items_kept_not_filtered_witness :
    (fetchCatalog envScenarioC).1.items =
        [normalizeFields rawEmptySku, normalizeFields rawB2] ∧
      ([normalizeFields rawEmptySku, normalizeFields rawB2] : List Product).length =
        (JSList.ofList [rawEmptySku, rawB2]).toList.length :=
  items_kept_not_filtered envScenarioC
    (.obj (JSObj.ofList [("items", .arr (JSList.ofList [rawEmptySku, rawB2]))]))
    (JSList.ofList [rawEmptySku, rawB2])
    [normalizeFields rawEmptySku, normalizeFields rawB2]
    (by decide) (by decide) rfl (by decide) (by decide) (by decide) (by decide)
    (by decide)

/-! ## Concrete sanity checks of the model -/

example : parseFloat "10.5" = .fin ⟨21, 2⟩ := by decide

example : parseNum (.str "10,5") = .fin ⟨21, 2⟩ := by decide

example : parseNum (.str "3") = .fin ⟨3, 1⟩ := by decide

example : parseNum (.str "-5") = .fin ⟨-5, 1⟩ := by decide

example : parseNum (.str "abc") = .fin Q.zero := by decide

example : parseNum .undefined = .fin Q.zero := by decide

example : parseNum (.str "1e3") = .fin ⟨1000, 1⟩ := by decide

example : parseNum (.str "0") = .fin Q.zero := by decide

example : isValidImageUrl "" = false := by decide

example : isValidImageUrl "https://example.com/a.png" = true := by decide

example : isValidImageUrl "http://example.com/a.png" = true := by decide

example : isValidImageUrl "javascript:alert(1)" = false := by decide

example : isValidImageUrl "/img/a.png" = true := by decide

example : isValidImageUrl "img/a.png" = true := by decide

example : isValidImageUrl "foo:bar" = false := by decide

example : isValidImageUrl "DATA:text/plain,hi" = true := by decide

example :
    normalizeProduct (.obj (JSObj.ofList
      [("sku", .str "A1"), ("priceRub", .str "10,5"), ("stock", .str "3")])) =
    .ok { sku := "A1", name := "", descriptionShort := "", descriptionFull := "",
          priceRub := .fin ⟨21, 2⟩, stock := .fin ⟨3, 1⟩,
          photoUrl := PLACEHOLDER_IMAGE, tags := [] } := by decide

example :
    fetchCatalog { store := none, writeFails := false, config := none,
                   net := .fail, now := 0 } =
    ({ generated_at := .str "0", error := some (.str "Каталог не настроен"),
       items := [] }, none) := by decide

example : fetchCatalog sampleEnv = (sampleResp, some (.entry ⟨sampleResp, 7⟩)) := by
  decide

example :
    getTelegramDeepLink "A1" = "https://t.me/agrosna1b_bot?start=sku_A1" := by decide

example :
    getTelegramDeepLink "a/b" = "https://t.me/agrosna1b_bot?start=sku_a%2Fb" := by
  decide

example :
    utf8Decode (pctDecode (encodeURIComponent "sku_Ф/ж").data) =
    "sku_Ф/ж".data.map Char.toNat := by decide
